import Mathlib

/-!
Shallow embedding of the version-service core (Go) for specification
checking.

Sources embedded:
* `src/pkg/semver/semver.go` — SemVer engine: `Parse`, `Version.String`,
  `IncrementPatch/Minor/Major`, `WithDevSuffix`, `IsValid`, `Compare`.
* `src/internal/models/version.go` — `AppVersion`, `ParseAppID`,
  `FormatAppID`.
* `src/unnamed/part_009` (`internal/services`, `VersionService`) —
  `saveVersion`, `saveVersionToGitWithRetry`, `isRetryableError`,
  `isPushFailure`, `containsAny`, `updateGitHealth`, `updateGitMetrics`,
  `trackRetry`, `markPushNeeded`, `periodicPushRetry`,
  `retryPendingPushes`, `GetVersion`, and the git portion of `Health`.

Modelling conventions:
* Go strings are Lean `String` (UTF-8 byte-wise order on Go strings
  coincides with code-point lexicographic order, so `List Char`
  comparison is faithful).
* Go `int`/`int64` are `Nat` where the source only ever holds
  non-negative values (counters, parsed version components) and `Int`
  where signedness matters (latencies, compare results).  The claims do
  not exercise 64-bit overflow, and `strconv.Atoi` is exact on every
  string produced by formatting an in-range value.
* `time.Time` values are `Nat` milliseconds; the Go zero time is `0`.
* Fallible calls to external collaborators (Redis, Git, GitLab) are
  oracle inputs: `Option String` is an error slot (`none` = success) and
  `Except String α` a fallible result.
* The `float64` moving-average latency field is the one piece of state
  not modelled (floating point); no claim mentions it.
-/

namespace VersionService

/-! ## SemVer engine (`src/pkg/semver/semver.go`) -/

/-- Go `semver.Version`: `Major`, `Minor`, `Patch` ints and a
`Prerelease` string whose empty value means "no prerelease". -/
structure Version where
  major : Nat
  minor : Nat
  patch : Nat
  prerelease : String
  deriving Repr, DecidableEq

/-- The character class matched by `\d` in Go's regexp: ASCII `0`-`9`. -/
def isDigitChar (c : Char) : Bool := 48 ≤ c.toNat && c.toNat ≤ 57

/-- `strconv.Atoi` on an all-digit capture group: decimal value of the
digit list (left fold). -/
def digitsToNat (ds : List Char) : Nat :=
  ds.foldl (fun a c => a * 10 + (c.toNat - 48)) 0

/-- Digit characters of a decimal number, most significant first,
prepended to `acc` (the recursion behind `%d` formatting).  Structural
recursion on a fuel argument so the kernel can evaluate it; any fuel
at least `n` yields the digits of `n`. -/
def natToDigitsAux : Nat → Nat → List Char → List Char
  | 0, _, acc => acc
  | fuel + 1, n, acc =>
    if n = 0 then acc
    else natToDigitsAux fuel (n / 10) (Char.ofNat (48 + n % 10) :: acc)

/-- `fmt.Sprintf("%d", n)` for a non-negative `n`, as a char list. -/
def natToDigits (n : Nat) : List Char :=
  if n = 0 then ['0'] else natToDigitsAux n n []

/-- Matcher for `^(\d+)\.(\d+)\.(\d+)(?:-(.+))?$` (Go regexp, no
multiline flag: `.` excludes `\n` and `$` is end of text), followed by
the `Atoi` conversions of `semver.Parse`.  Because a digit is never `.`
or `-`, the greedy `\d+` groups are forced, so maximal munch is the
exact regex semantics. -/
def parseChars (cs : List Char) : Option Version :=
  let d1 := cs.takeWhile isDigitChar
  let r1 := cs.dropWhile isDigitChar
  if d1 = [] then none else
  match r1 with
  | '.' :: r2 =>
    let d2 := r2.takeWhile isDigitChar
    let r3 := r2.dropWhile isDigitChar
    if d2 = [] then none else
    match r3 with
    | '.' :: r4 =>
      let d3 := r4.takeWhile isDigitChar
      let r5 := r4.dropWhile isDigitChar
      if d3 = [] then none else
      match r5 with
      | [] => some ⟨digitsToNat d1, digitsToNat d2, digitsToNat d3, ""⟩
      | '-' :: p =>
        if p ≠ [] ∧ p.all (fun c => c != '\n') then
          some ⟨digitsToNat d1, digitsToNat d2, digitsToNat d3, ⟨p⟩⟩
        else none
      | _ => none
    | _ => none
  | _ => none

/-- Go `semver.Parse`: `nil, error` becomes `none`. -/
def Parse (version : String) : Option Version :=
  parseChars version.data

/-- Go `(*Version).String()`: `major.minor.patch` with `-prerelease`
appended when the prerelease is non-empty. -/
def Version.toString (v : Version) : String :=
  ⟨natToDigits v.major ++ '.' :: natToDigits v.minor ++ '.' :: natToDigits v.patch ++
    (if v.prerelease = "" then [] else '-' :: v.prerelease.data)⟩

/-- Go `(*Version).IncrementPatch`: the struct literal omits
`Prerelease`, so it is the zero value `""`. -/
def Version.incrementPatch (v : Version) : Version :=
  { major := v.major, minor := v.minor, patch := v.patch + 1, prerelease := "" }

/-- Go `(*Version).IncrementMinor`. -/
def Version.incrementMinor (v : Version) : Version :=
  { major := v.major, minor := v.minor + 1, patch := 0, prerelease := "" }

/-- Go `(*Version).IncrementMajor`. -/
def Version.incrementMajor (v : Version) : Version :=
  { major := v.major + 1, minor := 0, patch := 0, prerelease := "" }

/-- Go `(*Version).WithDevSuffix`: prerelease `dev-` plus the first 7
characters of the SHA (all of it when shorter). -/
def Version.withDevSuffix (v : Version) (sha : String) : Version :=
  let shortSHA := if sha.data.length > 7 then ⟨sha.data.take 7⟩ else sha
  { major := v.major, minor := v.minor, patch := v.patch,
    prerelease := "dev-" ++ shortSHA }

/-- Go `semver.IsValid`. -/
def IsValid (version : String) : Bool := (Parse version).isSome

/-- Go `strings.Compare` on the underlying char lists: `-1`, `0` or `1`
by lexicographic order (byte order and code-point order agree under
UTF-8). -/
def charsCompare : List Char → List Char → Int
  | [], [] => 0
  | [], _ :: _ => -1
  | _ :: _, [] => 1
  | a :: as, b :: bs =>
    if a.toNat < b.toNat then -1
    else if b.toNat < a.toNat then 1
    else charsCompare as bs

/-- The comparison `semver.Compare` performs once both arguments parsed:
raw `int` differences of the numeric components, then the
release-beats-prerelease rule, then `strings.Compare` on prereleases. -/
def compareVersions (v1 v2 : Version) : Int :=
  if v1.major ≠ v2.major then (v1.major : Int) - (v2.major : Int)
  else if v1.minor ≠ v2.minor then (v1.minor : Int) - (v2.minor : Int)
  else if v1.patch ≠ v2.patch then (v1.patch : Int) - (v2.patch : Int)
  else if v1.prerelease = "" ∧ v2.prerelease ≠ "" then 1
  else if v1.prerelease ≠ "" ∧ v2.prerelease = "" then -1
  else charsCompare v1.prerelease.data v2.prerelease.data

/-- Go `semver.Compare`: parse both, propagate a parse failure,
otherwise compare. -/
def Compare (v1 v2 : String) : Option Int :=
  match Parse v1, Parse v2 with
  | some a, some b => some (compareVersions a b)
  | _, _ => none

/-! ## Models (`src/internal/models/version.go`) -/

/-- Go `models.AppVersion`; `LastUpdated` as Nat milliseconds. -/
structure AppVersion where
  current : String
  projectID : String
  appName : String
  repoName : String
  lastUpdated : Nat
  deriving Repr, DecidableEq

/-- Go `strings.Split(s, "-")` on the char list (the separator is the
single character `-`): maximal run of segments between separators; the
empty input yields one empty segment. -/
def splitDash : List Char → List (List Char)
  | [] => [[]]
  | c :: cs =>
    if c = '-' then [] :: splitDash cs
    else
      match splitDash cs with
      | [] => [[c]]
      | h :: t => (c :: h) :: t

/-- Go `strings.Join(parts, "-")` on char lists. -/
def joinDash : List (List Char) → List Char
  | [] => []
  | [x] => x
  | x :: y :: t => x ++ '-' :: joinDash (y :: t)

/-- Go `models.ParseAppID`: split on `-`; fewer than two segments is an
error; first segment is the project id, the rest rejoined with `-` is
the app name. -/
def ParseAppID (appID : String) : Except String (String × String) :=
  match splitDash appID.data with
  | p0 :: p1 :: rest => Except.ok (⟨p0⟩, ⟨joinDash (p1 :: rest)⟩)
  | _ => Except.error ("invalid app ID format: " ++ appID)

/-- Go `models.FormatAppID`. -/
def FormatAppID (projectID appName : String) : String :=
  projectID ++ "-" ++ appName

/-! ## Version service state (`src/unnamed/part_009`, `internal/services`)

Times are Nat milliseconds; the Go zero `time.Time` is `0`.  The
`float64` `avgLatencyMs` field is not modelled (floating point; no claim
involves it). -/

/-- Go `gitHealthStatus`. -/
structure GitHealthStatus where
  lastSuccess : Nat
  lastFailure : Nat
  recentFailures : Nat
  deriving Repr, DecidableEq

/-- Go `gitMetrics` (without the unmodelled float `avgLatencyMs`). -/
structure GitMetrics where
  operationsTotal : Nat
  operationsSucceeded : Nat
  operationsFailed : Nat
  retriesTotal : Nat
  lastOperationTime : Nat
  deriving Repr, DecidableEq

/-- The mutable fields of Go `VersionService` the claims touch. -/
structure ServiceState where
  gitHealth : GitHealthStatus
  gitMetrics : GitMetrics
  pushNeeded : Bool
  deriving Repr, DecidableEq

/-- State set up by Go `NewVersionService` at time `t`:
`gitHealth.lastSuccess = time.Now()`, everything else zero. -/
def initialState (t : Nat) : ServiceState :=
  { gitHealth := { lastSuccess := t, lastFailure := 0, recentFailures := 0 }
    gitMetrics := { operationsTotal := 0, operationsSucceeded := 0,
                    operationsFailed := 0, retriesTotal := 0,
                    lastOperationTime := 0 }
    pushNeeded := false }

/-- Go `(*VersionService).updateGitHealth` at wall time `now`. -/
def updateGitHealth (success : Bool) (now : Nat) (s : ServiceState) : ServiceState :=
  if success then
    let h := { s.gitHealth with lastSuccess := now, recentFailures := 0 }
    { s with gitHealth := h }
  else
    let h := { s.gitHealth with lastFailure := now, recentFailures := s.gitHealth.recentFailures + 1 }
    { s with gitHealth := h }

/-- Go `(*VersionService).updateGitMetrics` at wall time `now`
(`avgLatencyMs` update dropped, see above). -/
def updateGitMetrics (isStart : Bool) (retries : Nat) (latencyMs : Int) (now : Nat)
    (s : ServiceState) : ServiceState :=
  if isStart then
    let m := { s.gitMetrics with operationsTotal := s.gitMetrics.operationsTotal + 1, lastOperationTime := now }
    { s with gitMetrics := m }
  else
    if latencyMs > 0 then
      if retries = 0 ∨ latencyMs < 30000 then
        let m := { s.gitMetrics with operationsSucceeded := s.gitMetrics.operationsSucceeded + 1 }
        { s with gitMetrics := m }
      else
        let m := { s.gitMetrics with operationsFailed := s.gitMetrics.operationsFailed + 1 }
        { s with gitMetrics := m }
    else
      let m := { s.gitMetrics with operationsFailed := s.gitMetrics.operationsFailed + 1 }
      { s with gitMetrics := m }

/-- Go `(*VersionService).trackRetry`. -/
def trackRetry (s : ServiceState) : ServiceState :=
  let m := { s.gitMetrics with retriesTotal := s.gitMetrics.retriesTotal + 1 }
  { s with gitMetrics := m }

/-- Go `(*VersionService).markPushNeeded`. -/
def markPushNeeded (s : ServiceState) : ServiceState :=
  { s with pushNeeded := true }

/-- Go `containsAny` inner scan: `sub` occurs as a contiguous substring
of `str` (byte-wise window compare in the source). -/
def containsSub (str sub : List Char) : Bool :=
  sub.isPrefixOf str ||
    match str with
    | [] => false
    | _ :: t => containsSub t sub

/-- Go `containsAny`. -/
def containsAny (str : List Char) (subs : List (List Char)) : Bool :=
  subs.any (fun sub => containsSub str sub)

/-- Go `(*VersionService).isRetryableError`: never retryable on the
credential/permission substrings; otherwise the retryable-substring scan
is `|| true`-ed, so everything else is retryable. -/
def isRetryableError (err : String) : Bool :=
  if containsAny err.data ["authentication failed".data, "permission denied".data,
      "access denied".data, "unauthorized".data, "forbidden".data,
      "invalid credentials".data] then
    false
  else
    (containsAny err.data ["timeout".data, "connection".data, "network".data,
      "temporary".data, "unavailable".data, "refused".data, "reset".data,
      "push failed".data] || true)

/-- Go `(*VersionService).isPushFailure`. -/
def isPushFailure (err : String) : Bool :=
  containsAny err.data ["push failed".data, "failed to push".data]

/-! ## Background durable write (`saveVersionToGitWithRetry`)

Oracles stand for the interaction with the Git storage backend and the
wall clock: `errAt k` is the result of the `git.SetVersion` call on
attempt `k` (`none` = success), `latAt k` the value
`time.Since(startTime).Milliseconds()` observed at the exit that happens
while processing attempt `k` (`latAt maxRetries` for the
exhausted-retries exit, which happens after the loop), and `tExit` the
wall time at that exit. -/

/-- How a run of the background durable-write procedure terminated. -/
inductive SaveGitOutcome where
  | success (attempt : Nat)
  | pushFailure (attempt : Nat)
  | nonRetryable (attempt : Nat)
  | exhausted
  deriving Repr, DecidableEq

/-- Go constant `maxRetries` in `saveVersionToGitWithRetry`. -/
def maxRetries : Nat := 3

/-- The `for attempt := 0; attempt < maxRetries; attempt++` loop of
`saveVersionToGitWithRetry`, with `fuel = maxRetries - attempt`
remaining iterations.  Exit paths in source order: success; push
failure (after the `attempt > 0` retry tracking); non-retryable error;
otherwise backoff and continue; after the loop, the exhausted-retries
epilogue. -/
def saveGitLoop (errAt : Nat → Option String) (latAt : Nat → Int) (tExit : Nat) :
    Nat → Nat → ServiceState → SaveGitOutcome × ServiceState
  | 0, _, s =>
    let s := updateGitHealth false tExit s
    let s := updateGitMetrics false (maxRetries - 1) (latAt maxRetries) tExit s
    let s := markPushNeeded s
    (SaveGitOutcome.exhausted, s)
  | fuel + 1, attempt, s =>
    match errAt attempt with
    | none =>
      let s := updateGitHealth true tExit s
      let s := updateGitMetrics false attempt (latAt attempt) tExit s
      (SaveGitOutcome.success attempt, s)
    | some err =>
      let s := if attempt > 0 then trackRetry s else s
      if isPushFailure err then
        let s := markPushNeeded s
        let s := updateGitHealth false tExit s
        let s := updateGitMetrics false attempt (latAt attempt) tExit s
        (SaveGitOutcome.pushFailure attempt, s)
      else if !isRetryableError err then
        let s := updateGitHealth false tExit s
        let s := updateGitMetrics false attempt (latAt attempt) tExit s
        (SaveGitOutcome.nonRetryable attempt, s)
      else
        saveGitLoop errAt latAt tExit fuel (attempt + 1) s

/-- Go `(*VersionService).saveVersionToGitWithRetry`: the
`updateGitMetrics(true, 0, 0)` start marker at wall time `t0`, then the
retry loop. -/
def saveVersionToGitWithRetry (errAt : Nat → Option String) (latAt : Nat → Int)
    (t0 tExit : Nat) (s : ServiceState) : SaveGitOutcome × ServiceState :=
  saveGitLoop errAt latAt tExit maxRetries 0 (updateGitMetrics true 0 0 t0 s)

/-! ## Write pipeline (`saveVersion`) -/

/-- Go `(*VersionService).saveVersion`: synchronous Redis write
(`redisSetErr` is its oracle result), error propagated to the caller;
on success the Git write is scheduled as a background task.  The second
component records the scheduled background write, if any. -/
def saveVersion (redisSetErr : Option String) (appID : String) (version : AppVersion) :
    Except String Unit × Option (String × AppVersion) :=
  match redisSetErr with
  | some e => (Except.error ("failed to save version to Redis: " ++ e), none)
  | none => (Except.ok (), some (appID, version))

/-- Caller-visible result of `saveVersion` paired with the service
state after the scheduled background durable write (if any) has also
run.  The Git-side oracles only feed the background task; the first
component is what `saveVersion` returns to its caller. -/
def saveVersionWithBackground (redisSetErr : Option String)
    (errAt : Nat → Option String) (latAt : Nat → Int) (t0 tExit : Nat)
    (appID : String) (version : AppVersion) (s : ServiceState) :
    Except String Unit × ServiceState :=
  match saveVersion redisSetErr appID version with
  | (Except.error e, _) => (Except.error e, s)
  | (Except.ok _, _) => (Except.ok (), (saveVersionToGitWithRetry errAt latAt t0 tExit s).2)

/-! ## Read path (`GetVersion`) -/

/-- Oracle environment for one `GetVersion` call: results of the
external calls it may make, plus the wall clock. -/
structure ResolveEnv where
  /-- `redis.GetVersion`: Go returns a pair (value, error); a backend
  error comes with a `nil` value but both slots are modelled. -/
  redisGet : Option AppVersion × Option String
  /-- `git.GetVersion`: an error is fatal to the read. -/
  gitGet : Except String (Option AppVersion)
  /-- `gitLabClient`: `none` when the client is `nil`, otherwise the
  `GetLatestTag` result (`Except.ok ""` = no tag found). -/
  gitlab : Option (Except String String)
  /-- `redis.SetVersion` result inside the durable-hit cache-back. -/
  redisSetOnGitHit : Option String
  /-- `redis.SetVersion` result inside `saveVersion`. -/
  redisSetOnSave : Option String
  /-- `time.Now()` for the freshly created record. -/
  now : Nat

/-- Side effects of one `GetVersion` call: cache writes attempted and
the background durable write scheduled by `saveVersion` (if any). -/
structure ResolveEffects where
  cacheWrites : List (String × AppVersion)
  scheduledGitWrite : Option (String × AppVersion)
  deriving Repr, DecidableEq

/-- Go `(*VersionService).GetVersion`: parse the id; Redis read (errors
logged, never fatal: only a `nil` value falls through); Git read
(errors fatal); on a Git hit, best-effort synchronous cache-back; on a
full miss, seed from GitLab (`nil` client, errors and empty tags all
mean "no seed" → `"1.0.0"`), build the record with `LastUpdated = now`
and commit it through `saveVersion`. -/
def GetVersion (env : ResolveEnv) (appID : String) :
    Except String AppVersion × ResolveEffects :=
  match ParseAppID appID with
  | Except.error e => (Except.error ("invalid app ID: " ++ e), ⟨[], none⟩)
  | Except.ok (projectID, appName) =>
    match env.redisGet.1 with
    | some v => (Except.ok v, ⟨[], none⟩)
    | none =>
      match env.gitGet with
      | Except.error e =>
        (Except.error ("failed to get version from Git: " ++ e), ⟨[], none⟩)
      | Except.ok (some v) =>
        (Except.ok v, ⟨[(appID, v)], none⟩)
      | Except.ok none =>
        let initialVersion :=
          match env.gitlab with
          | none => ""
          | some (Except.error _) => ""
          | some (Except.ok tag) => tag
        let initialVersion := if initialVersion = "" then "1.0.0" else initialVersion
        let version : AppVersion :=
          { current := initialVersion, projectID := projectID, appName := appName,
            repoName := "", lastUpdated := env.now }
        match saveVersion env.redisSetOnSave appID version with
        | (Except.error e, _) => (Except.error e, ⟨[(appID, version)], none⟩)
        | (Except.ok _, g) => (Except.ok version, ⟨[(appID, version)], g⟩)

/-! ## Health verdict and periodic push retry -/

/-- The `checks["git"]` value computed by `(*VersionService).Health`,
as a structured verdict. -/
inductive GitVerdict where
  | healthy
  | degradedManyFailures (n : Nat) (lastFailure : Nat)
  | degradedRecentFailures (n : Nat)
  | degradedNoRecentSuccess
  | unhealthy (err : String)
  deriving Repr, DecidableEq

/-- Go constant `recentWindow = 5 * time.Minute`, in milliseconds. -/
def recentWindow : Nat := 300000

/-- The git portion of Go `(*VersionService).Health` at wall time
`now`, with `backendErr` the oracle result of `git.Health`.  In every
real execution `now` is at least every recorded timestamp, so truncated
Nat subtraction agrees with Go duration comparison. -/
def gitHealthCheck (backendErr : Option String) (now : Nat) (h : GitHealthStatus) :
    GitVerdict :=
  match backendErr with
  | some e => GitVerdict.unhealthy e
  | none =>
    if h.recentFailures > 0 ∧ now - h.lastFailure < recentWindow then
      if h.recentFailures ≥ 3 then
        GitVerdict.degradedManyFailures h.recentFailures h.lastFailure
      else
        GitVerdict.degradedRecentFailures h.recentFailures
    else if h.lastSuccess ≠ 0 ∧ now - h.lastSuccess > recentWindow then
      GitVerdict.degradedNoRecentSuccess
    else
      GitVerdict.healthy

/-- Go `(*VersionService).retryPendingPushes`: `pushCapable` models the
`s.git.(storage.GitPushable)` type assertion, `pushResult` the
`PushPendingCommits` oracle outcome; a successful push records a health
success at wall time `tNow`. -/
def retryPendingPushes (pushCapable : Bool) (pushResult : Option String)
    (tNow : Nat) (s : ServiceState) : Option String × ServiceState :=
  if !pushCapable then
    (some "Git storage does not support push operations", s)
  else
    match pushResult with
    | some e => (some ("failed to push pending commits: " ++ e), s)
    | none => (none, updateGitHealth true tNow s)

/-- One tick of Go `(*VersionService).periodicPushRetry`: when the
push-needed flag is set, invoke `retryPendingPushes`; only a successful
invocation clears the flag. -/
def periodicPushRetryTick (pushCapable : Bool) (pushResult : Option String)
    (tNow : Nat) (s : ServiceState) : ServiceState :=
  if s.pushNeeded then
    match retryPendingPushes pushCapable pushResult tNow s with
    | (some _, s1) => s1
    | (none, s1) => { s1 with pushNeeded := false }
  else s

/-! ## Helper lemmas -/

theorem splitDash_ne_nil (l : List Char) : splitDash l ≠ [] := by
  cases l with
  | nil => simp [splitDash]
  | cons c cs =>
    by_cases h : c = '-' <;> simp only [splitDash, h, if_true, if_false, reduceIte]
    · simp
    · cases hs : splitDash cs <;> simp

theorem joinDash_cons_cons (c : Char) (h : List Char) (t : List (List Char)) :
    joinDash ((c :: h) :: t) = c :: joinDash (h :: t) := by
  cases t <;> simp [joinDash]

theorem joinDash_splitDash (l : List Char) : joinDash (splitDash l) = l := by
  induction l with
  | nil => simp [splitDash, joinDash]
  | cons c cs ih =>
    by_cases h : c = '-'
    · subst h
      simp only [splitDash, if_true, reduceIte]
      cases hs : splitDash cs with
      | nil => exact absurd hs (splitDash_ne_nil cs)
      | cons y t =>
        simp only [joinDash, List.nil_append]
        rw [← hs, ih]
    · simp only [splitDash, h, if_false, reduceIte]
      cases hs : splitDash cs with
      | nil => exact absurd hs (splitDash_ne_nil cs)
      | cons y t =>
        rw [joinDash_cons_cons, ← hs, ih]

theorem string_data_ext (s t : String) (h : s.data = t.data) : s = t := by
  cases s; cases t; exact congrArg String.mk h

theorem string_data_ne_nil (s : String) (h : s ≠ "") : s.data ≠ [] := by
  intro hnil; apply h; cases s; exact congrArg String.mk hnil

theorem char_toNat_injective (c d : Char) (h : c.toNat = d.toNat) : c = d := by
  apply Char.ext
  exact UInt32.toNat.inj h

/-! ## Claims about identifier parsing and SemVer increments -/

/-- C8: `ParseAppID` splits on `-`: with at least two segments it
returns the first as the group id and the remaining segments rejoined
with `-` as the name; with fewer than two segments it fails with the
invalid-identifier error; and formatting a successful parse
reconstructs the original identifier exactly. -/
theorem parseAppID_split_error_roundtrip (s : String) :
    ((splitDash s.data).length < 2 →
      ParseAppID s = Except.error ("invalid app ID format: " ++ s)) ∧
    (∀ p0 p1 rest, splitDash s.data = p0 :: p1 :: rest →
      ParseAppID s = Except.ok (⟨p0⟩, ⟨joinDash (p1 :: rest)⟩)) ∧
    (∀ g n, ParseAppID s = Except.ok (g, n) → FormatAppID g n = s) := by
  refine ⟨?_, ?_, ?_⟩
  · intro hlen
    unfold ParseAppID
    cases hs : splitDash s.data with
    | nil => rfl
    | cons p0 t =>
      cases t with
      | nil => rfl
      | cons p1 rest => rw [hs] at hlen; simp at hlen; omega
  · intro p0 p1 rest hs
    unfold ParseAppID
    rw [hs]
  · intro g n hok
    unfold ParseAppID at hok
    cases hs : splitDash s.data with
    | nil => rw [hs] at hok; exact absurd hok (by simp)
    | cons p0 t =>
      cases t with
      | nil => rw [hs] at hok; exact absurd hok (by simp)
      | cons p1 rest =>
        rw [hs] at hok
        have hpair : ((⟨p0⟩ : String), (⟨joinDash (p1 :: rest)⟩ : String)) = (g, n) :=
          Except.ok.inj hok
        have hg : (⟨p0⟩ : String) = g := congrArg Prod.fst hpair
        have hn : (⟨joinDash (p1 :: rest)⟩ : String) = n := congrArg Prod.snd hpair
        subst hg
        subst hn
        apply string_data_ext
        have hjoin : joinDash (p0 :: p1 :: rest) = s.data := by
          rw [← hs, joinDash_splitDash]
        calc (FormatAppID ⟨p0⟩ ⟨joinDash (p1 :: rest)⟩).data
            = p0 ++ '-' :: joinDash (p1 :: rest) := by
              simp [FormatAppID, String.data_append]
          _ = joinDash (p0 :: p1 :: rest) := by rw [joinDash]
          _ = s.data := hjoin

/-- Witness for C8 at the spec's example identifier. -/
theorem parseAppID_split_error_roundtrip_witness :
    ParseAppID "5678-payment-gateway-service" =
      Except.ok ("5678", "payment-gateway-service") ∧
    FormatAppID "5678" "payment-gateway-service" = "5678-payment-gateway-service" := by
  constructor
  · exact (parseAppID_split_error_roundtrip "5678-payment-gateway-service").2.1
      "5678".data "payment".data ["gateway".data, "service".data] (by decide)
  · exact (parseAppID_split_error_roundtrip "5678-payment-gateway-service").2.2
      "5678" "payment-gateway-service" rfl

/-- C9: each increment operation bumps exactly its own component,
resets the lower ones, leaves the higher ones unchanged, and clears the
prerelease. -/
theorem increment_components (v : Version) :
    (v.incrementPatch.major = v.major ∧ v.incrementPatch.minor = v.minor ∧
      v.incrementPatch.patch = v.patch + 1 ∧ v.incrementPatch.prerelease = "") ∧
    (v.incrementMinor.major = v.major ∧ v.incrementMinor.minor = v.minor + 1 ∧
      v.incrementMinor.patch = 0 ∧ v.incrementMinor.prerelease = "") ∧
    (v.incrementMajor.major = v.major + 1 ∧ v.incrementMajor.minor = 0 ∧
      v.incrementMajor.patch = 0 ∧ v.incrementMajor.prerelease = "") :=
  ⟨⟨rfl, rfl, rfl, rfl⟩, ⟨rfl, rfl, rfl, rfl⟩, ⟨rfl, rfl, rfl, rfl⟩⟩

/-! ## Claims about `Compare` -/

theorem charsCompare_cases (x y : List Char) :
    charsCompare x y = -1 ∨ charsCompare x y = 0 ∨ charsCompare x y = 1 := by
  induction x generalizing y with
  | nil => cases y <;> simp [charsCompare]
  | cons a as ih =>
    cases y with
    | nil => simp [charsCompare]
    | cons b bs =>
      by_cases h1 : a.toNat < b.toNat
      · simp [charsCompare, h1]
      · by_cases h2 : b.toNat < a.toNat
        · simp [charsCompare, h1, h2]
        · simpa [charsCompare, h1, h2] using ih bs

theorem charsCompare_eq_zero_iff (x y : List Char) :
    charsCompare x y = 0 ↔ x = y := by
  induction x generalizing y with
  | nil => cases y <;> simp [charsCompare]
  | cons a as ih =>
    cases y with
    | nil => simp [charsCompare]
    | cons b bs =>
      by_cases h1 : a.toNat < b.toNat
      · simp only [charsCompare, h1, if_true, reduceIte]
        constructor
        · intro h; exact absurd h (by decide)
        · intro h
          injection h with hx hxs
          subst hx
          omega
      · by_cases h2 : b.toNat < a.toNat
        · simp only [charsCompare, h1, h2, if_false, if_true, reduceIte]
          constructor
          · intro h; exact absurd h (by decide)
          · intro h
            injection h with hx hxs
            subst hx
            omega
        · have hab : a = b := char_toNat_injective a b (by omega)
          subst hab
          simp only [charsCompare, h1, h2, if_false, reduceIte]
          rw [ih bs]
          simp

theorem charsCompare_swap (x y : List Char) :
    charsCompare y x = -charsCompare x y := by
  induction x generalizing y with
  | nil => cases y <;> simp [charsCompare]
  | cons a as ih =>
    cases y with
    | nil => simp [charsCompare]
    | cons b bs =>
      by_cases h1 : a.toNat < b.toNat
      · have h2 : ¬ b.toNat < a.toNat := by omega
        simp [charsCompare, h1, h2]
      · by_cases h2 : b.toNat < a.toNat
        · simp [charsCompare, h1, h2]
        · simpa [charsCompare, h1, h2] using ih bs

/-- Counterexample to C6 as stated: on the code, `Compare` returns the
raw difference of the first differing numeric component, which for
`3.0.0` versus `1.0.0` is `2` — not a value in `{-1, 0, 1}`. -/
theorem compare_result_outside_unit_range :
    Compare "3.0.0" "1.0.0" = some 2 ∧
    decide ((2 : Int) = -1 ∨ (2 : Int) = 0 ∨ (2 : Int) = 1) = false := by
  constructor
  · rfl
  · rfl

/-- The strict "greater" order described by the spec: major, then
minor, then patch numerically; a release beats any prerelease; two
prereleases compare by ordinal (byte-wise) order. -/
def specVersionGt (a b : Version) : Prop :=
  b.major < a.major ∨ (a.major = b.major ∧
    (b.minor < a.minor ∨ (a.minor = b.minor ∧
      (b.patch < a.patch ∨ (a.patch = b.patch ∧
        ((a.prerelease = "" ∧ b.prerelease ≠ "") ∨
         (a.prerelease ≠ "" ∧ b.prerelease ≠ "" ∧
          charsCompare a.prerelease.data b.prerelease.data = 1)))))))

instance (a b : Version) : Decidable (specVersionGt a b) := by
  unfold specVersionGt; infer_instance

/-- C6 (amended): for valid inputs `Compare` returns an integer whose
sign — not necessarily a value in `{-1,0,1}` — encodes the order of the
claim: positive iff the first version is strictly greater (major, then
minor, then patch numerically; a release beats a prerelease; otherwise
ordinal byte-wise prerelease comparison), negative iff strictly
smaller, and zero iff the parsed versions are equal. -/
theorem compareVersions_pos_iff (a b : Version) :
    0 < compareVersions a b ↔ specVersionGt a b := by
  obtain ⟨ma, mi, pa, pr⟩ := a
  obtain ⟨mb, nb, qb, sb⟩ := b
  unfold compareVersions specVersionGt
  simp only
  by_cases h1 : ma = mb
  case neg =>
    rw [if_pos h1]
    constructor
    · intro h; exact Or.inl (by omega)
    · rintro (h | ⟨h, _⟩)
      · omega
      · exact absurd h h1
  case pos =>
    subst h1
    rw [if_neg (by simp)]
    by_cases h2 : mi = nb
    case neg =>
      rw [if_pos h2]
      constructor
      · intro h; exact Or.inr ⟨rfl, Or.inl (by omega)⟩
      · rintro (h | ⟨-, h | ⟨h, -⟩⟩)
        · omega
        · omega
        · exact absurd h h2
    case pos =>
      subst h2
      rw [if_neg (by simp)]
      by_cases h3 : pa = qb
      case neg =>
        rw [if_pos h3]
        constructor
        · intro h; exact Or.inr ⟨rfl, Or.inr ⟨rfl, Or.inl (by omega)⟩⟩
        · rintro (h | ⟨-, h | ⟨-, h | ⟨h, -⟩⟩⟩)
          · omega
          · omega
          · omega
          · exact absurd h h3
      case pos =>
        subst h3
        rw [if_neg (by simp)]
        simp only [lt_irrefl, false_or, true_and, lt_self_iff_false]
        by_cases h4 : pr = "" <;> by_cases h5 : sb = ""
        · subst h4; subst h5
          rw [if_neg (by simp), if_neg (by simp)]
          simp [charsCompare]
        · subst h4
          rw [if_pos ⟨rfl, h5⟩]
          simp [h5]
        · subst h5
          rw [if_neg (by simp [h4]), if_pos ⟨h4, rfl⟩]
          simp [h4]
        · rw [if_neg (by simp [h4]), if_neg (by simp [h5])]
          rcases charsCompare_cases pr.data sb.data with h | h | h <;> rw [h]
          · constructor
            · intro hx; exact absurd hx (by decide)
            · rintro (⟨hx, -⟩ | ⟨-, -, hx⟩)
              · exact absurd hx h4
              · exact absurd hx (by decide)
          · constructor
            · intro hx; exact absurd hx (by decide)
            · rintro (⟨hx, -⟩ | ⟨-, -, hx⟩)
              · exact absurd hx h4
              · exact absurd hx (by decide)
          · constructor
            · intro hx; exact Or.inr ⟨h4, h5, rfl⟩
            · intro hx; decide

theorem compareVersions_eq_zero_iff (a b : Version) :
    compareVersions a b = 0 ↔ a = b := by
  obtain ⟨ma, mi, pa, pr⟩ := a
  obtain ⟨mb, nb, qb, sb⟩ := b
  unfold compareVersions
  simp only [Version.mk.injEq]
  by_cases h1 : ma = mb
  case neg =>
    rw [if_pos h1]
    constructor
    · intro h; exact absurd (by omega : ma = mb) h1
    · rintro ⟨h, -⟩; exact absurd h h1
  case pos =>
    subst h1
    rw [if_neg (by simp)]
    by_cases h2 : mi = nb
    case neg =>
      rw [if_pos h2]
      constructor
      · intro h; exact absurd (by omega : mi = nb) h2
      · rintro ⟨-, h, -⟩; exact absurd h h2
    case pos =>
      subst h2
      rw [if_neg (by simp)]
      by_cases h3 : pa = qb
      case neg =>
        rw [if_pos h3]
        constructor
        · intro h; exact absurd (by omega : pa = qb) h3
        · rintro ⟨-, -, h, -⟩; exact absurd h h3
      case pos =>
        subst h3
        rw [if_neg (by simp)]
        simp only [true_and]
        by_cases h4 : pr = "" <;> by_cases h5 : sb = ""
        · subst h4; subst h5
          rw [if_neg (by simp), if_neg (by simp)]
          simp [charsCompare]
        · subst h4
          rw [if_pos ⟨rfl, h5⟩]
          constructor
          · intro h; exact absurd h (by decide)
          · intro h; exact absurd h.symm h5
        · subst h5
          rw [if_neg (by simp [h4]), if_pos ⟨h4, rfl⟩]
          constructor
          · intro h; exact absurd h (by decide)
          · intro h; exact absurd h h4
        · rw [if_neg (by simp [h4]), if_neg (by simp [h5])]
          rw [charsCompare_eq_zero_iff]
          constructor
          · intro h; exact string_data_ext pr sb h
          · intro h; rw [h]

theorem compareVersions_swap (a b : Version) :
    compareVersions b a = -(compareVersions a b) := by
  obtain ⟨ma, mi, pa, pr⟩ := a
  obtain ⟨mb, nb, qb, sb⟩ := b
  unfold compareVersions
  simp only
  by_cases h1 : ma = mb
  case neg =>
    rw [if_pos (show mb ≠ ma from Ne.symm h1), if_pos (show ma ≠ mb from h1)]
    omega
  case pos =>
    subst h1
    rw [if_neg (show ¬ ma ≠ ma by simp), if_neg (show ¬ ma ≠ ma by simp)]
    by_cases h2 : mi = nb
    case neg =>
      rw [if_pos (show nb ≠ mi from Ne.symm h2), if_pos (show mi ≠ nb from h2)]
      omega
    case pos =>
      subst h2
      rw [if_neg (show ¬ mi ≠ mi by simp), if_neg (show ¬ mi ≠ mi by simp)]
      by_cases h3 : pa = qb
      case neg =>
        rw [if_pos (show qb ≠ pa from Ne.symm h3), if_pos (show pa ≠ qb from h3)]
        omega
      case pos =>
        subst h3
        rw [if_neg (show ¬ pa ≠ pa by simp), if_neg (show ¬ pa ≠ pa by simp)]
        by_cases h4 : pr = "" <;> by_cases h5 : sb = ""
        · subst h4; subst h5
          decide
        · subst h4
          rw [if_neg (show ¬ (sb = "" ∧ ("" : String) ≠ "") by simp),
            if_pos (show sb ≠ "" ∧ ("" : String) = "" from ⟨h5, rfl⟩),
            if_pos (show ("" : String) = "" ∧ sb ≠ "" from ⟨rfl, h5⟩)]
        · subst h5
          rw [if_pos (show ("" : String) = "" ∧ pr ≠ "" from ⟨rfl, h4⟩),
            if_neg (show ¬ (pr = "" ∧ ("" : String) ≠ "") by simp [h4]),
            if_pos (show pr ≠ "" ∧ ("" : String) = "" from ⟨h4, rfl⟩)]
          decide
        · rw [if_neg (show ¬ (sb = "" ∧ pr ≠ "") by simp [h5]),
            if_neg (show ¬ (sb ≠ "" ∧ pr = "") by simp [h4]),
            if_neg (show ¬ (pr = "" ∧ sb ≠ "") by simp [h4]),
            if_neg (show ¬ (pr ≠ "" ∧ sb = "") by simp [h5])]
          exact charsCompare_swap pr.data sb.data

/-- C6 (amended): for valid inputs `Compare` returns an integer whose
sign — not necessarily a value in `{-1,0,1}` — encodes the order of the
claim: positive iff the first version is strictly greater (major, then
minor, then patch numerically; a release beats a prerelease; otherwise
ordinal byte-wise prerelease comparison), negative iff strictly
smaller, and zero iff the parsed versions are equal. -/
theorem compare_sign_matches_spec_order (a b : String) (va vb : Version)
    (ha : Parse a = some va) (hb : Parse b = some vb) :
    ∃ r : Int, Compare a b = some r ∧
      (0 < r ↔ specVersionGt va vb) ∧
      (r < 0 ↔ specVersionGt vb va) ∧
      (r = 0 ↔ va = vb) := by
  refine ⟨compareVersions va vb, by simp [Compare, ha, hb], ?_, ?_, ?_⟩
  · exact compareVersions_pos_iff va vb
  · have h := compareVersions_pos_iff vb va
    rw [compareVersions_swap va vb] at h
    rw [← h]
    omega
  · exact compareVersions_eq_zero_iff va vb

/-- Witness for C6 at the spec's examples: a release strictly exceeds
its prerelease and equal versions compare to zero. -/
theorem compare_sign_matches_spec_order_witness :
    (∃ r : Int, Compare "1.2.3" "1.2.3-dev" = some r ∧ 0 < r) ∧
    (∃ r : Int, Compare "1.2.3" "1.2.3" = some r ∧ r = 0) := by
  constructor
  · obtain ⟨r, hr, hpos, -, -⟩ :=
      compare_sign_matches_spec_order "1.2.3" "1.2.3-dev" ⟨1, 2, 3, ""⟩ ⟨1, 2, 3, "dev"⟩ rfl rfl
    exact ⟨r, hr, hpos.mpr (by decide)⟩
  · obtain ⟨r, hr, -, -, hz⟩ :=
      compare_sign_matches_spec_order "1.2.3" "1.2.3" ⟨1, 2, 3, ""⟩ ⟨1, 2, 3, ""⟩ rfl rfl
    exact ⟨r, hr, hz.mpr rfl⟩

/-! ## Claims about `Parse` / `Version.toString` round-tripping -/

theorem char_toNat_ofNat_digit (m : Nat) (hm : m < 10) :
    (Char.ofNat (48 + m)).toNat = 48 + m := by
  interval_cases m <;> decide

theorem isDigitChar_ofNat_digit (m : Nat) (hm : m < 10) :
    isDigitChar (Char.ofNat (48 + m)) = true := by
  interval_cases m <;> decide

theorem natToDigitsAux_acc (fuel n : Nat) (acc : List Char) :
    natToDigitsAux fuel n acc = natToDigitsAux fuel n [] ++ acc := by
  induction fuel generalizing n acc with
  | zero => simp [natToDigitsAux]
  | succ fuel ih =>
    by_cases h : n = 0
    · simp [natToDigitsAux, h]
    · rw [natToDigitsAux, if_neg h, natToDigitsAux, if_neg h]
      rw [ih (n / 10) (Char.ofNat (48 + n % 10) :: acc),
        ih (n / 10) [Char.ofNat (48 + n % 10)]]
      simp

theorem natToDigitsAux_all_digits (fuel n : Nat) :
    ∀ c ∈ natToDigitsAux fuel n [], isDigitChar c = true := by
  induction fuel generalizing n with
  | zero => simp [natToDigitsAux]
  | succ fuel ih =>
    by_cases h : n = 0
    · simp [natToDigitsAux, h]
    · rw [natToDigitsAux, if_neg h, natToDigitsAux_acc]
      intro c hc
      rcases List.mem_append.mp hc with hc | hc
      · exact ih (n / 10) c hc
      · rw [List.mem_singleton.mp hc]
        exact isDigitChar_ofNat_digit (n % 10) (Nat.mod_lt n (by omega))

theorem natToDigits_all_digits (n : Nat) :
    ∀ c ∈ natToDigits n, isDigitChar c = true := by
  unfold natToDigits
  by_cases h : n = 0
  · intro c hc
    rw [if_pos h] at hc
    rw [List.mem_singleton.mp hc]
    decide
  · rw [if_neg h]
    exact natToDigitsAux_all_digits n n

theorem natToDigits_ne_nil (n : Nat) : natToDigits n ≠ [] := by
  unfold natToDigits
  by_cases h : n = 0
  · simp [h]
  · rw [if_neg h]
    cases n with
    | zero => exact absurd rfl h
    | succ m =>
      rw [natToDigitsAux, if_neg h, natToDigitsAux_acc]
      simp

theorem digitsToNat_append_singleton (ds : List Char) (c : Char) :
    digitsToNat (ds ++ [c]) = digitsToNat ds * 10 + (c.toNat - 48) := by
  unfold digitsToNat
  rw [List.foldl_append]
  rfl

theorem digitsToNat_natToDigitsAux (fuel n : Nat) (hfuel : n ≤ fuel) :
    digitsToNat (natToDigitsAux fuel n []) = n := by
  induction fuel generalizing n with
  | zero =>
    have : n = 0 := by omega
    subst this
    rfl
  | succ fuel ih =>
    by_cases h : n = 0
    · subst h; rfl
    · rw [natToDigitsAux, if_neg h, natToDigitsAux_acc,
        digitsToNat_append_singleton,
        char_toNat_ofNat_digit (n % 10) (Nat.mod_lt n (by omega)),
        ih (n / 10) (by omega)]
      omega

theorem digitsToNat_natToDigits (n : Nat) : digitsToNat (natToDigits n) = n := by
  unfold natToDigits
  by_cases h : n = 0
  · simp [h]; rfl
  · rw [if_neg h]
    exact digitsToNat_natToDigitsAux n n (Nat.le_refl n)

theorem takeWhile_all_append (p : Char → Bool) (l : List Char) (c : Char)
    (r : List Char) (hl : ∀ x ∈ l, p x = true) (hc : p c = false) :
    (l ++ c :: r).takeWhile p = l ∧ (l ++ c :: r).dropWhile p = c :: r := by
  induction l with
  | nil => simp [List.takeWhile, List.dropWhile, hc]
  | cons a t ih =>
    have ha : p a = true := hl a (List.mem_cons_self a t)
    have ht : ∀ x ∈ t, p x = true := fun x hx => hl x (List.mem_cons_of_mem a hx)
    obtain ⟨ih1, ih2⟩ := ih ht
    constructor
    · rw [List.cons_append, List.takeWhile_cons, if_pos ha, ih1]
    · rw [List.cons_append, List.dropWhile_cons, if_pos ha, ih2]

theorem takeWhile_all (p : Char → Bool) (l : List Char)
    (hl : ∀ x ∈ l, p x = true) :
    l.takeWhile p = l ∧ l.dropWhile p = [] := by
  induction l with
  | nil => simp
  | cons a t ih =>
    have ha : p a = true := hl a (List.mem_cons_self a t)
    have ht : ∀ x ∈ t, p x = true := fun x hx => hl x (List.mem_cons_of_mem a hx)
    obtain ⟨ih1, ih2⟩ := ih ht
    constructor
    · rw [List.takeWhile_cons, if_pos ha, ih1]
    · rw [List.dropWhile_cons, if_pos ha, ih2]

/-- Counterexample to C7 as stated: a prerelease containing a newline
does not survive the regex (`.` never matches `\n`), so the formatted
string fails to parse at all. -/
theorem parse_format_newline_fails :
    Version.toString ⟨1, 2, 3, "a\nb"⟩ = "1.2.3-a\nb" ∧
    Parse (Version.toString ⟨1, 2, 3, "a\nb"⟩) = none := by
  constructor
  · rfl
  · decide

/-- C7 (amended): formatting then parsing is the identity for every
version value whose prerelease contains no newline character (the Go
regex's `.` cannot match `\n`, so a newline in the prerelease makes the
canonical string unparsable; every other value round-trips). -/
theorem parseChars_composite (ma mi pa : Nat) (tl : List Char)
    (htl : tl = [] ∨ ∃ p, tl = '-' :: p ∧ p ≠ [] ∧ p.all (fun c => c != '\n') = true) :
    parseChars (natToDigits ma ++ '.' :: (natToDigits mi ++ '.' :: (natToDigits pa ++ tl)))
      = some ⟨ma, mi, pa, ⟨tl.drop 1⟩⟩ := by
  have hdot : isDigitChar '.' = false := rfl
  have h1 := takeWhile_all_append isDigitChar (natToDigits ma) '.'
    (natToDigits mi ++ '.' :: (natToDigits pa ++ tl)) (natToDigits_all_digits ma) hdot
  unfold parseChars
  rw [h1.1, h1.2]
  rw [if_neg (natToDigits_ne_nil ma)]
  simp only
  have h2 := takeWhile_all_append isDigitChar (natToDigits mi) '.'
    (natToDigits pa ++ tl) (natToDigits_all_digits mi) hdot
  rw [h2.1, h2.2]
  rw [if_neg (natToDigits_ne_nil mi)]
  simp only
  rcases htl with htl | ⟨p, htl, hp, hnl⟩
  · subst htl
    rw [List.append_nil]
    have h3 := takeWhile_all isDigitChar (natToDigits pa) (natToDigits_all_digits pa)
    rw [h3.1, h3.2]
    rw [if_neg (natToDigits_ne_nil pa)]
    simp [digitsToNat_natToDigits]
  · subst htl
    have h3 := takeWhile_all_append isDigitChar (natToDigits pa) '-' p
      (natToDigits_all_digits pa) rfl
    rw [h3.1, h3.2]
    rw [if_neg (natToDigits_ne_nil pa)]
    simp only
    rw [if_pos ⟨hp, hnl⟩]
    simp [digitsToNat_natToDigits]

/-- C7 (amended): formatting then parsing is the identity for every
version value whose prerelease contains no newline character (the Go
regex's `.` cannot match `\n`, so a newline in the prerelease makes the
canonical string unparsable; every other value round-trips). -/
theorem parse_toString_roundtrip (v : Version)
    (h : ∀ c ∈ v.prerelease.data, c ≠ '\n') :
    Parse (Version.toString v) = some v := by
  obtain ⟨ma, mi, pa, pr⟩ := v
  unfold Version.toString Parse
  simp only at h ⊢
  have hassoc :
      ((natToDigits ma ++ '.' :: natToDigits mi) ++ '.' :: natToDigits pa) ++
          (if pr = "" then ([] : List Char) else '-' :: pr.data)
        = natToDigits ma ++ '.' :: (natToDigits mi ++ '.' :: (natToDigits pa ++
            (if pr = "" then ([] : List Char) else '-' :: pr.data))) := by
    simp [List.append_assoc]
  rw [hassoc, parseChars_composite ma mi pa _ ?htl]
  case htl =>
    by_cases hpr : pr = ""
    · exact Or.inl (by rw [if_pos hpr])
    · refine Or.inr ⟨pr.data, by rw [if_neg hpr], string_data_ne_nil pr hpr, ?_⟩
      rw [List.all_eq_true]
      intro c hc
      simpa using h c hc
  by_cases hpr : pr = ""
  · subst hpr
    rw [if_pos rfl]
    rfl
  · rw [if_neg hpr]
    simp only [List.drop_succ_cons, List.drop_zero]

/-- Witness for C7 at a concrete prerelease version. -/
theorem parse_toString_roundtrip_witness :
    Parse (Version.toString ⟨1, 2, 3, "dev"⟩) = some ⟨1, 2, 3, "dev"⟩ :=
  parse_toString_roundtrip ⟨1, 2, 3, "dev"⟩ (by decide)

/-! ## Claims about the write pipeline and the read path -/

/-- C1: `saveVersion` writes the cache synchronously: a cache write
failure is returned to the caller and no durable write is scheduled; a
cache write success returns ok and schedules the background durable
write; and the caller-visible result never depends on the background
durable write's oracles, so no background durable-write error reaches
the caller. -/
theorem save_cache_sync_git_async (redisSetErr : Option String)
    (errAt : Nat → Option String) (latAt : Nat → Int) (t0 tExit : Nat)
    (appID : String) (version : AppVersion) (s : ServiceState) :
    (∀ e, redisSetErr = some e →
      (saveVersionWithBackground redisSetErr errAt latAt t0 tExit appID version s).1
          = Except.error ("failed to save version to Redis: " ++ e) ∧
        (saveVersion redisSetErr appID version).2 = none) ∧
    (redisSetErr = none →
      (saveVersionWithBackground redisSetErr errAt latAt t0 tExit appID version s).1
          = Except.ok () ∧
        (saveVersion redisSetErr appID version).2 = some (appID, version)) ∧
    (∀ errAt2 latAt2 t02 tExit2,
      (saveVersionWithBackground redisSetErr errAt latAt t0 tExit appID version s).1
        = (saveVersionWithBackground redisSetErr errAt2 latAt2 t02 tExit2 appID version s).1) := by
  refine ⟨?_, ?_, ?_⟩
  · intro e he
    subst he
    exact ⟨rfl, rfl⟩
  · intro he
    subst he
    exact ⟨rfl, rfl⟩
  · intro errAt2 latAt2 t02 tExit2
    cases redisSetErr <;> rfl

/-- Witness for C1: a failing cache write surfaces the cache error, a
succeeding one returns ok with the durable write scheduled. -/
theorem save_cache_sync_git_async_witness :
    ((saveVersionWithBackground (some "redis down") (fun _ => none) (fun _ => 0) 0 0
        "a-b" ⟨"1.0.0", "a", "b", "", 0⟩ (initialState 0)).1
      = Except.error "failed to save version to Redis: redis down") ∧
    ((saveVersionWithBackground none (fun _ => some "boom") (fun _ => 0) 0 0
        "a-b" ⟨"1.0.0", "a", "b", "", 0⟩ (initialState 0)).1 = Except.ok ()) := by
  constructor
  · exact ((save_cache_sync_git_async (some "redis down") (fun _ => none) (fun _ => 0)
      0 0 "a-b" ⟨"1.0.0", "a", "b", "", 0⟩ (initialState 0)).1 "redis down" rfl).1
  · exact ((save_cache_sync_git_async none (fun _ => some "boom") (fun _ => 0)
      0 0 "a-b" ⟨"1.0.0", "a", "b", "", 0⟩ (initialState 0)).2.1 rfl).1

/-- C2: on a read with a valid identifier, a cache-backend failure is
never surfaced: the call behaves exactly as a cache miss (the error
slot is ignored), while a durable-store failure after a cache miss is
returned to the caller. -/
theorem resolve_cache_error_nonfatal_git_error_fatal (env : ResolveEnv)
    (appID : String) (gn : String × String)
    (hid : ParseAppID appID = Except.ok gn) :
    (∀ e, env.redisGet = (none, some e) →
      GetVersion env appID = GetVersion { env with redisGet := (none, none) } appID) ∧
    (∀ e, env.redisGet.1 = none → env.gitGet = Except.error e →
      (GetVersion env appID).1 = Except.error ("failed to get version from Git: " ++ e)) := by
  obtain ⟨g, n⟩ := gn
  constructor
  · intro e he
    unfold GetVersion
    rw [hid]
    rw [he]
  · intro e hmiss hgit
    unfold GetVersion
    rw [hid]
    cases hrg : env.redisGet.1 with
    | some v => rw [hrg] at hmiss; exact absurd hmiss (by simp)
    | none => rw [hgit]

/-- Witness for C2: with the cache backend down and the durable store
down, the resolve call surfaces the durable error. -/
theorem resolve_cache_error_nonfatal_git_error_fatal_witness :
    (GetVersion ⟨(none, some "redis down"), Except.error "git down", none, none, none, 0⟩
        "a-b").1 = Except.error "failed to get version from Git: git down" :=
  (resolve_cache_error_nonfatal_git_error_fatal
    ⟨(none, some "redis down"), Except.error "git down", none, none, none, 0⟩
    "a-b" ("a", "b") rfl).2 "git down" rfl rfl

/-- C4: a valid identifier absent from cache and durable store, with no
Tag Discovery seed (client absent, lookup failed, or empty tag), and a
succeeding cache write, resolves to a freshly built record with current
version `1.0.0` and `lastUpdated = now`, which is both written to the
cache and scheduled for the background durable write. -/
theorem resolve_default_version_persisted (env : ResolveEnv)
    (appID g n : String)
    (hid : ParseAppID appID = Except.ok (g, n))
    (hredis : env.redisGet.1 = none)
    (hgit : env.gitGet = Except.ok none)
    (hgitlab : env.gitlab = none ∨ (∃ e, env.gitlab = some (Except.error e)) ∨
      env.gitlab = some (Except.ok ""))
    (hsave : env.redisSetOnSave = none) :
    GetVersion env appID =
      (Except.ok ⟨"1.0.0", g, n, "", env.now⟩,
       ⟨[(appID, ⟨"1.0.0", g, n, "", env.now⟩)],
        some (appID, ⟨"1.0.0", g, n, "", env.now⟩)⟩) := by
  unfold GetVersion
  rw [hid]
  cases hrg : env.redisGet.1 with
  | some v => rw [hrg] at hredis; exact absurd hredis (by simp)
  | none =>
    rw [hgit]
    simp only
    rcases hgitlab with hgl | ⟨e, hgl⟩ | hgl <;> rw [hgl] <;>
      simp only [if_pos rfl, reduceIte] <;>
      unfold saveVersion <;> rw [hsave]

/-- Witness for C4 at a concrete all-miss environment. -/
theorem resolve_default_version_persisted_witness :
    GetVersion ⟨(none, none), Except.ok none, some (Except.ok ""), none, none, 42⟩ "a-b" =
      (Except.ok ⟨"1.0.0", "a", "b", "", 42⟩,
       ⟨[("a-b", ⟨"1.0.0", "a", "b", "", 42⟩)], some ("a-b", ⟨"1.0.0", "a", "b", "", 42⟩)⟩) :=
  resolve_default_version_persisted
    ⟨(none, none), Except.ok none, some (Except.ok ""), none, none, 42⟩
    "a-b" "a" "b" rfl rfl rfl (Or.inr (Or.inr rfl)) rfl

/-- C5: a first-attempt durable-write failure that is classified
non-retryable (not a push failure, not retryable) ends the retry loop
at attempt 0 with no further attempts, leaves `retriesTotal` unchanged,
records a health failure, and does not set the push-needed flag. -/
theorem nonretryable_aborts_first_attempt (e : String)
    (errAt : Nat → Option String) (latAt : Nat → Int) (t0 tExit : Nat)
    (s : ServiceState)
    (h0 : errAt 0 = some e)
    (hpush : isPushFailure e = false)
    (hretry : isRetryableError e = false) :
    (saveVersionToGitWithRetry errAt latAt t0 tExit s).1 = SaveGitOutcome.nonRetryable 0 ∧
    (saveVersionToGitWithRetry errAt latAt t0 tExit s).2.gitMetrics.retriesTotal
      = s.gitMetrics.retriesTotal ∧
    (saveVersionToGitWithRetry errAt latAt t0 tExit s).2.gitHealth.recentFailures
      = s.gitHealth.recentFailures + 1 ∧
    (saveVersionToGitWithRetry errAt latAt t0 tExit s).2.gitHealth.lastFailure = tExit ∧
    (saveVersionToGitWithRetry errAt latAt t0 tExit s).2.pushNeeded = s.pushNeeded := by
  unfold saveVersionToGitWithRetry maxRetries
  rw [saveGitLoop, h0]
  simp only [Nat.lt_irrefl, if_false, reduceIte, hpush, Bool.false_eq_true,
    Bool.not_false, if_true]
  rw [hretry]
  simp [updateGitHealth, updateGitMetrics, trackRetry]
  split <;> simp

/-- Witness for C5 with an authentication failure on the first
attempt. -/
theorem nonretryable_aborts_first_attempt_witness :
    (saveVersionToGitWithRetry (fun _ => some "authentication failed") (fun _ => 100)
        0 50 (initialState 0)).1 = SaveGitOutcome.nonRetryable 0 ∧
    (saveVersionToGitWithRetry (fun _ => some "authentication failed") (fun _ => 100)
        0 50 (initialState 0)).2.gitMetrics.retriesTotal = 0 ∧
    (saveVersionToGitWithRetry (fun _ => some "authentication failed") (fun _ => 100)
        0 50 (initialState 0)).2.pushNeeded = false := by
  obtain ⟨h1, h2, h3, h4, h5⟩ := nonretryable_aborts_first_attempt "authentication failed"
    (fun _ => some "authentication failed") (fun _ => 100) 0 50 (initialState 0)
    rfl (by decide) (by decide)
  exact ⟨h1, h2, h5⟩

/-! ## Claims about retry exhaustion, health degradation and metrics -/

theorem updateGitMetrics_gitHealth (isStart : Bool) (retries : Nat) (lat : Int)
    (now : Nat) (st : ServiceState) :
    (updateGitMetrics isStart retries lat now st).gitHealth = st.gitHealth := by
  unfold updateGitMetrics
  split
  · rfl
  · split
    · split <;> rfl
    · rfl

theorem updateGitMetrics_pushNeeded (isStart : Bool) (retries : Nat) (lat : Int)
    (now : Nat) (st : ServiceState) :
    (updateGitMetrics isStart retries lat now st).pushNeeded = st.pushNeeded := by
  unfold updateGitMetrics
  split
  · rfl
  · split
    · split <;> rfl
    · rfl

theorem updateGitMetrics_retriesTotal (isStart : Bool) (retries : Nat) (lat : Int)
    (now : Nat) (st : ServiceState) :
    (updateGitMetrics isStart retries lat now st).gitMetrics.retriesTotal
      = st.gitMetrics.retriesTotal := by
  unfold updateGitMetrics
  split
  · rfl
  · split
    · split <;> rfl
    · rfl

theorem updateGitMetrics_start_counters (retries : Nat) (lat : Int)
    (now : Nat) (st : ServiceState) :
    (updateGitMetrics true retries lat now st).gitMetrics.operationsSucceeded
        = st.gitMetrics.operationsSucceeded ∧
    (updateGitMetrics true retries lat now st).gitMetrics.operationsFailed
        = st.gitMetrics.operationsFailed := by
  unfold updateGitMetrics
  exact ⟨rfl, rfl⟩

theorem updateGitMetrics_completed_fast (retries : Nat) (lat : Int)
    (now : Nat) (st : ServiceState) (hlat : 0 < lat)
    (hc : retries = 0 ∨ lat < 30000) :
    (updateGitMetrics false retries lat now st).gitMetrics.operationsSucceeded
      = st.gitMetrics.operationsSucceeded + 1 := by
  unfold updateGitMetrics
  rw [if_neg (by simp), if_pos hlat, if_pos hc]

theorem updateGitMetrics_completed_zero_latency (retries : Nat) (lat : Int)
    (now : Nat) (st : ServiceState) (hlat : ¬ 0 < lat) :
    (updateGitMetrics false retries lat now st).gitMetrics.operationsFailed
      = st.gitMetrics.operationsFailed + 1 := by
  unfold updateGitMetrics
  rw [if_neg (by simp), if_neg hlat]

/-- Counterexample to C3 as stated: a background durable write that
fails with retryable errors on all three attempts records exactly one
health failure, so starting from a fresh service the push-needed flag
is set but `recentFailures` is `1`, not `3`. -/
theorem retry_exhaustion_single_failure_count :
    (saveVersionToGitWithRetry (fun _ => some "connection refused") (fun _ => 100)
        0 50 (initialState 0)).2.pushNeeded = true ∧
    (saveVersionToGitWithRetry (fun _ => some "connection refused") (fun _ => 100)
        0 50 (initialState 0)).2.gitHealth.recentFailures = 1 ∧
    decide ((saveVersionToGitWithRetry (fun _ => some "connection refused") (fun _ => 100)
        0 50 (initialState 0)).2.gitHealth.recentFailures = 3) = false := by
  refine ⟨rfl, rfl, ?_⟩
  rfl

/-- C3 (amended): a background durable write failing with retryable
(non-push) errors on all three attempts exhausts the loop, sets the
process-wide push-needed flag, and records one health failure —
`recentFailures` is incremented by 1 (so it is 1, not 3, from a fresh
state), which still makes the health verdict Degraded inside the
5-minute window; a subsequent successful pending-push-retry tick clears
the flag and resets `recentFailures` to 0. -/
theorem retry_exhaustion_flags_push_and_degrades
    (errAt : Nat → Option String) (latAt : Nat → Int) (t0 tExit : Nat)
    (s : ServiceState) (out : SaveGitOutcome) (s1 : ServiceState)
    (hrun : saveVersionToGitWithRetry errAt latAt t0 tExit s = (out, s1))
    (hfail : ∀ k, k < maxRetries → ∃ e, errAt k = some e ∧
      isPushFailure e = false ∧ isRetryableError e = true) :
    out = SaveGitOutcome.exhausted ∧
    s1.pushNeeded = true ∧
    s1.gitHealth.recentFailures = s.gitHealth.recentFailures + 1 ∧
    s1.gitHealth.lastFailure = tExit ∧
    (s.gitHealth.recentFailures = 0 → ∀ now, now - tExit < recentWindow →
      gitHealthCheck none now s1.gitHealth = GitVerdict.degradedRecentFailures 1) ∧
    (∀ tNow, (periodicPushRetryTick true none tNow s1).pushNeeded = false ∧
      (periodicPushRetryTick true none tNow s1).gitHealth.recentFailures = 0) := by
  obtain ⟨e0, he0, hp0, hr0⟩ := hfail 0 (by decide)
  obtain ⟨e1, he1, hp1, hr1⟩ := hfail 1 (by decide)
  obtain ⟨e2, he2, hp2, hr2⟩ := hfail 2 (by decide)
  unfold saveVersionToGitWithRetry maxRetries at hrun
  simp only [saveGitLoop, he0, he1, he2, hp0, hp1, hp2, hr0, hr1, hr2,
    Bool.false_eq_true, Bool.not_true, Bool.not_false, if_false, if_true, reduceIte,
    gt_iff_lt, Nat.lt_irrefl, Nat.zero_lt_one, Nat.zero_lt_succ,
    Prod.mk.injEq] at hrun
  obtain ⟨hout, hs1⟩ := hrun
  subst hout
  have hgh : s1.gitHealth
      = ⟨s.gitHealth.lastSuccess, tExit, s.gitHealth.recentFailures + 1⟩ := by
    rw [← hs1]
    simp [markPushNeeded, updateGitMetrics_gitHealth, updateGitHealth, trackRetry]
  have hpn : s1.pushNeeded = true := by
    rw [← hs1]
    simp [markPushNeeded]
  refine ⟨rfl, hpn, ?_, ?_, ?_, ?_⟩
  · rw [hgh]
  · rw [hgh]
  · intro hrf now hnow
    rw [hgh]
    simp [gitHealthCheck, hrf, hnow]
  · intro tNow
    constructor <;>
      simp [periodicPushRetryTick, retryPendingPushes, hpn, updateGitHealth]

/-- Witness for C3 (amended) on a concrete exhausted run followed by a
successful push-retry tick. -/
theorem retry_exhaustion_flags_push_and_degrades_witness :
    (saveVersionToGitWithRetry (fun _ => some "network unreachable") (fun _ => 120)
        0 50 (initialState 0)).1 = SaveGitOutcome.exhausted ∧
    (saveVersionToGitWithRetry (fun _ => some "network unreachable") (fun _ => 120)
        0 50 (initialState 0)).2.pushNeeded = true ∧
    (periodicPushRetryTick true none 70
      (saveVersionToGitWithRetry (fun _ => some "network unreachable") (fun _ => 120)
        0 50 (initialState 0)).2).pushNeeded = false := by
  obtain ⟨h1, h2, -, -, -, h6⟩ := retry_exhaustion_flags_push_and_degrades
    (fun _ => some "network unreachable") (fun _ => 120) 0 50 (initialState 0)
    (saveVersionToGitWithRetry (fun _ => some "network unreachable") (fun _ => 120)
      0 50 (initialState 0)).1
    (saveVersionToGitWithRetry (fun _ => some "network unreachable") (fun _ => 120)
      0 50 (initialState 0)).2
    rfl
    (by intro k hk; exact ⟨"network unreachable", rfl, by decide, by decide⟩)
  exact ⟨h1, h2, (h6 70).1⟩

/-- C10: the completed-operation counters classify by recorded latency
and retry count, not by outcome: a push-failure termination or a
non-retryable termination on the first attempt with positive recorded
latency, and a retry exhaustion whose recorded latency lies in
(0, 30000) ms, all increment `operationsSucceeded`; a genuinely
successful first-attempt write whose recorded latency rounds to 0 ms
increments `operationsFailed` instead. -/
theorem metrics_classify_by_latency
    (errAt : Nat → Option String) (latAt : Nat → Int) (t0 tExit : Nat)
    (s : ServiceState) :
    (∀ e, errAt 0 = some e → isPushFailure e = true → 0 < latAt 0 →
      (saveVersionToGitWithRetry errAt latAt t0 tExit s).2.gitMetrics.operationsSucceeded
        = s.gitMetrics.operationsSucceeded + 1) ∧
    (∀ e, errAt 0 = some e → isPushFailure e = false → isRetryableError e = false →
      0 < latAt 0 →
      (saveVersionToGitWithRetry errAt latAt t0 tExit s).2.gitMetrics.operationsSucceeded
        = s.gitMetrics.operationsSucceeded + 1) ∧
    ((∀ k, k < maxRetries → ∃ e, errAt k = some e ∧
        isPushFailure e = false ∧ isRetryableError e = true) →
      0 < latAt maxRetries → latAt maxRetries < 30000 →
      (saveVersionToGitWithRetry errAt latAt t0 tExit s).2.gitMetrics.operationsSucceeded
        = s.gitMetrics.operationsSucceeded + 1) ∧
    (errAt 0 = none → latAt 0 = 0 →
      (saveVersionToGitWithRetry errAt latAt t0 tExit s).2.gitMetrics.operationsFailed
        = s.gitMetrics.operationsFailed + 1) := by
  refine ⟨?_, ?_, ?_, ?_⟩
  · intro e he hpush hlat
    unfold saveVersionToGitWithRetry
    simp only [saveGitLoop, maxRetries, he, hpush, if_true, reduceIte, gt_iff_lt,
      lt_self_iff_false, if_false]
    rw [updateGitMetrics_completed_fast _ _ _ _ hlat (Or.inl rfl)]
    simp [updateGitHealth, markPushNeeded, (updateGitMetrics_start_counters 0 0 t0 s).1]
  · intro e he hpush hretry hlat
    unfold saveVersionToGitWithRetry
    simp only [saveGitLoop, maxRetries, he, hpush, hretry, Bool.false_eq_true,
      Bool.not_false, if_false, if_true, reduceIte, gt_iff_lt, lt_self_iff_false]
    rw [updateGitMetrics_completed_fast _ _ _ _ hlat (Or.inl rfl)]
    simp [updateGitHealth, (updateGitMetrics_start_counters 0 0 t0 s).1]
  · intro hfail hlat hlat30
    obtain ⟨e0, he0, hp0, hr0⟩ := hfail 0 (by decide)
    obtain ⟨e1, he1, hp1, hr1⟩ := hfail 1 (by decide)
    obtain ⟨e2, he2, hp2, hr2⟩ := hfail 2 (by decide)
    unfold saveVersionToGitWithRetry
    simp only [saveGitLoop, maxRetries, he0, he1, he2, hp0, hp1, hp2, hr0, hr1, hr2,
      Bool.false_eq_true, Bool.not_true, Bool.not_false, if_false, if_true, reduceIte,
      gt_iff_lt, Nat.lt_irrefl, Nat.zero_lt_one, Nat.zero_lt_succ] at hlat hlat30 ⊢
    rw [show ∀ Y : ServiceState, (markPushNeeded Y).gitMetrics = Y.gitMetrics
      from fun Y => rfl]
    rw [updateGitMetrics_completed_fast _ _ _ _ hlat (Or.inr hlat30)]
    simp [updateGitHealth, trackRetry, (updateGitMetrics_start_counters 0 0 t0 s).1]
  · intro he hlat
    unfold saveVersionToGitWithRetry
    simp only [saveGitLoop, maxRetries, he]
    rw [updateGitMetrics_completed_zero_latency _ _ _ _ (by omega)]
    simp [updateGitHealth, (updateGitMetrics_start_counters 0 0 t0 s).2]

/-- Witness for C10: a push-failure run counted as a success and a
0-latency success counted as a failure. -/
theorem metrics_classify_by_latency_witness :
    (saveVersionToGitWithRetry (fun _ => some "push failed") (fun _ => 100)
        0 50 (initialState 0)).2.gitMetrics.operationsSucceeded = 1 ∧
    (saveVersionToGitWithRetry (fun _ => none) (fun _ => 0)
        0 50 (initialState 0)).2.gitMetrics.operationsFailed = 1 := by
  constructor
  · exact (metrics_classify_by_latency (fun _ => some "push failed") (fun _ => 100)
      0 50 (initialState 0)).1 "push failed" rfl (by decide) (by decide)
  · exact (metrics_classify_by_latency (fun _ => none) (fun _ => 0)
      0 50 (initialState 0)).2.2.2 rfl rfl

end VersionService
